import Mathlib

set_option maxHeartbeats 1000000

/-!
Shallow embedding of the kaitu npm installer (src/npm/postinstall.js and
src/npm/index.js).

Modelling conventions:
* file contents are byte lists (`Content`);
* the filesystem is an association list from path strings to contents (`FS`);
* the network is a script: for each URL, the list of HTTP responses the
  successive `https.get` calls of one download attempt observe (`GetResult`);
* external shell commands (`hdiutil`, `cp`, `rm`, `chmod`, `mkdir`,
  `kaitu-service install`) are events whose success is decided by an oracle
  `ops : SysEvent → Bool`; the run also logs the events it performed;
* Node's `crypto` sha256 hex rendering is an explicit parameter
  `sha256hex : Content → String` (crypto always renders lowercase hex; the
  repository code only concatenates and compares the resulting string).
-/

abbrev Content := List Nat

abbrev FS := List (String × Content)

def FS.read : FS → String → Option Content
  | [], _ => none
  | (q, c) :: rest, p => if q = p then some c else FS.read rest p

def FS.remove : FS → String → FS
  | [], _ => []
  | (q, c) :: rest, p => if q = p then FS.remove rest p else (q, c) :: FS.remove rest p

def FS.write (fs : FS) (p : String) (c : Content) : FS :=
  (p, c) :: FS.remove fs p

def FS.pathExists (fs : FS) (p : String) : Bool :=
  (FS.read fs p).isSome

/-- Errors of the install pipeline (the `Error` objects thrown in
postinstall.js, by the message they carry). -/
inductive InstallError where
  | unsupportedPlatform (platform : String)
  | downloadFailed (status : Nat)
  | networkError
  | hashMismatch (expected actual : String)
  | bundleNotFound
  | cmdFailed (cmd : String)
  | readError
deriving Repr, DecidableEq

/-- One observed outcome of a single `https.get` call: a response with a
status code, a `Location` header value and a body, or a transport-level
error event. -/
inductive GetResult where
  | success (status : Nat) (location : String) (body : Content)
  | netError
deriving Repr, DecidableEq

/-- External effects performed by the installer: network downloads and the
shell commands of postinstall.js. -/
inductive SysEvent where
  | download (url dest : String)
  | attach (dmgPath mnt : String)
  | detach (mnt : String)
  | removeTree (p : String)
  | copyTree (src dst : String)
  | copyFile (src dst : String)
  | mkdirp (p : String)
  | chmodx (p : String)
  | runServiceInstall (p : String)
deriving Repr, DecidableEq

/-- Result of `getPlatformInfo` in postinstall.js. -/
structure PlatformInfo where
  platform : String
  arch : String
  key : String
  isMac : Bool
  isWindows : Bool
  isLinux : Bool
deriving Repr, DecidableEq

/-- Windows architecture table of getPlatformInfo (postinstall.js lines
32-36); unmapped architectures pass through (`archMap[arch] || arch`). -/
def winArchMap (arch : String) : String :=
  if arch = "x64" then "amd64"
  else if arch = "arm64" then "arm64"
  else if arch = "ia32" then "386"
  else arch

/-- Linux architecture table of getPlatformInfo (postinstall.js lines
47-51); unmapped architectures pass through. -/
def linuxArchMap (arch : String) : String :=
  if arch = "x64" then "amd64"
  else if arch = "arm64" then "arm64"
  else if arch = "arm" then "arm"
  else arch

/-- getPlatformInfo (postinstall.js lines 16-63): maps process.platform and
process.arch to the canonical platform record, throwing on an unsupported
platform. -/
def getPlatformInfo (platform arch : String) : Except InstallError PlatformInfo :=
  if platform = "darwin" then
    Except.ok ⟨"darwin", "universal", "darwin-universal", true, false, false⟩
  else if platform = "win32" then
    Except.ok ⟨"windows", winArchMap arch, "windows-" ++ winArchMap arch, false, true, false⟩
  else if platform = "linux" then
    Except.ok ⟨"linux", linuxArchMap arch, "linux-" ++ linuxArchMap arch, false, false, true⟩
  else
    Except.error (InstallError.unsupportedPlatform platform)

/-- The platform record getPlatformInfo returns on darwin. -/
def darwinPI : PlatformInfo :=
  ⟨"darwin", "universal", "darwin-universal", true, false, false⟩

/-- downloadFile (postinstall.js lines 96-148).  The write stream is opened
(creating/truncating the destination) before the response arrives; a
301/302 response closes and deletes the destination and re-issues the
request to the redirect target (the tail of the script); any other non-200
status deletes the destination and rejects with the status; a transport
error event deletes the destination and rejects; a 200 response pipes the
body into the destination.  Returns the rejection (if any) and the
filesystem afterwards. -/
def downloadFile : List GetResult → String → FS → Option InstallError × FS
  | [], dest, fs =>
    (some InstallError.networkError, FS.remove (FS.write fs dest []) dest)
  | GetResult.netError :: _, dest, fs =>
    (some InstallError.networkError, FS.remove (FS.write fs dest []) dest)
  | GetResult.success st _ body :: rest, dest, fs =>
    let fs1 := FS.write fs dest []
    if st = 301 ∨ st = 302 then
      downloadFile rest dest (FS.remove fs1 dest)
    else if st ≠ 200 then
      (some (InstallError.downloadFailed st), FS.remove fs1 dest)
    else
      (none, FS.write fs1 dest body)

/-- verifyHash (postinstall.js lines 209-229): streams the file, computes
the sha256 hex digest, prepends the literal "sha256:" and compares the
result to the expected string with exact string equality.  `none` means
the promise resolved; a missing file surfaces as the stream error. -/
def verifyHash (sha256hex : Content → String) (fs : FS) (filePath expectedHash : String) :
    Option InstallError :=
  match FS.read fs filePath with
  | none => some InstallError.readError
  | some data =>
    let fileHash := "sha256:" ++ sha256hex data
    if fileHash = expectedHash then none
    else some (InstallError.hashMismatch expectedHash fileHash)

/-- String suffix test (JavaScript `f.endsWith(".app")`), computed on the
character lists. -/
def strEndsWith (s suffix : String) : Bool :=
  List.isSuffixOf suffix.data s.data

/-- Fixed mount point used by installDMG (path.join(os.tmpdir(), 'kaitu-mount')). -/
def mountPoint : String := "/tmp/kaitu-mount"

/-- Destination of the app copy in installDMG. -/
def kaituAppDest : String := "/Applications/Kaitu.app"

structure DmgOut where
  err : Option InstallError
  fs : FS
  events : List SysEvent
deriving Repr, DecidableEq

/-- installDMG (postinstall.js lines 151-206).  `vol` is the top-level
listing of the mounted volume and `bundle` the bytes of the application
bundle inside it (abstracting the tree `cp -R` copies).  Faithful control
flow: attach; if `Kaitu.app` is absent the code only checks that *some*
`.app` entry exists (the found name is never used); remove any existing
destination; `cp -R "<mnt>/Kaitu.app"` — which can only succeed when the
canonical name is really present; `hdiutil detach` via execSync, whose
failure throws; unlink the DMG; the catch block always attempts a
best-effort detach before re-throwing. -/
def installDMG (ops : SysEvent → Bool) (vol : List String) (bundle : Content)
    (dmgPath : String) (fs : FS) : DmgOut :=
  let evA := SysEvent.attach dmgPath mountPoint
  if ops evA then
    if vol.contains "Kaitu.app" || (vol.find? (fun f => strEndsWith f ".app")).isSome then
      let needRemove := FS.pathExists fs kaituAppDest
      let evRm : List SysEvent := if needRemove then [SysEvent.removeTree kaituAppDest] else []
      if needRemove && !ops (SysEvent.removeTree kaituAppDest) then
        ⟨some (InstallError.cmdFailed "rm"), fs, evA :: evRm ++ [SysEvent.detach mountPoint]⟩
      else
        let fs1 := if needRemove then FS.remove fs kaituAppDest else fs
        let evCp := SysEvent.copyTree (mountPoint ++ "/Kaitu.app") kaituAppDest
        if vol.contains "Kaitu.app" && ops evCp then
          let fs2 := FS.write fs1 kaituAppDest bundle
          if ops (SysEvent.detach mountPoint) then
            ⟨none, FS.remove fs2 dmgPath, evA :: evRm ++ [evCp, SysEvent.detach mountPoint]⟩
          else
            ⟨some (InstallError.cmdFailed "hdiutil detach"), fs2,
              evA :: evRm ++ [evCp, SysEvent.detach mountPoint, SysEvent.detach mountPoint]⟩
        else
          ⟨some (InstallError.cmdFailed "cp"), fs1,
            evA :: evRm ++ [evCp, SysEvent.detach mountPoint]⟩
    else
      ⟨some InstallError.bundleNotFound, fs, [evA, SysEvent.detach mountPoint]⟩
  else
    ⟨some (InstallError.cmdFailed "hdiutil attach"), fs, [evA, SysEvent.detach mountPoint]⟩

/-- An artifact descriptor from package.json: URL plus `"sha256:<hex>"` hash. -/
structure ArtifactInfo where
  url : String
  hash : String
deriving Repr, DecidableEq

/-- Manifest lookup: `config[key]` over the association list. -/
def lookupCfg : List (String × ArtifactInfo) → String → Option ArtifactInfo
  | [], _ => none
  | (k, v) :: rest, key => if k = key then some v else lookupCfg rest key

/-- Temp path of the service binary (postinstall.js lines 244-245). -/
def tempPathOf (pinfo : PlatformInfo) : String :=
  "/tmp/kaitu-service-" ++ pinfo.key ++ (if pinfo.isWindows then ".exe" else "")

/-- Install target of the service binary (postinstall.js lines 246-248). -/
def targetPathOf (pinfo : PlatformInfo) : String :=
  if pinfo.isWindows then "C:\\Program Files\\kaitu\\kaitu-service.exe"
  else "/usr/local/bin/kaitu-service"

structure SvcOut where
  installed : Bool
  fs : FS
  events : List SysEvent
deriving Repr, DecidableEq

/-- installService (postinstall.js lines 232-303).  Downloads the service
binary to the temp path, verifies its hash, and on macOS/Linux ensures
/usr/local/bin exists, copies the binary, sets the executable bit, deletes
the temp file and runs `kaitu-service install` (whose failure is only
logged).  Every error inside the try block is caught and turned into the
return value `false`; note that no catch path deletes the temp file, and
the Windows branch returns false leaving the temp file in place. -/
def installService (ops : SysEvent → Bool) (sha256hex : Content → String)
    (net : String → List GetResult) (pinfo : PlatformInfo)
    (serviceCfg : List (String × ArtifactInfo)) (fs : FS) : SvcOut :=
  match lookupCfg serviceCfg pinfo.key with
  | none => ⟨false, fs, []⟩
  | some info =>
    let tempPath := tempPathOf pinfo
    let targetPath := targetPathOf pinfo
    let dl := downloadFile (net info.url) tempPath fs
    let evDl := [SysEvent.download info.url tempPath]
    match dl.1 with
    | some _ => ⟨false, dl.2, evDl⟩
    | none =>
      match verifyHash sha256hex dl.2 tempPath info.hash with
      | some _ => ⟨false, dl.2, evDl⟩
      | none =>
        if pinfo.isMac || pinfo.isLinux then
          let binDir := "/usr/local/bin"
          let fsA := dl.2
          let needMk := !FS.pathExists fsA binDir
          let evMk : List SysEvent := if needMk then [SysEvent.mkdirp binDir] else []
          if needMk && !ops (SysEvent.mkdirp binDir) then
            ⟨false, fsA, evDl ++ evMk⟩
          else
            let fsB := if needMk then FS.write fsA binDir [] else fsA
            let evCp := SysEvent.copyFile tempPath targetPath
            if ops evCp then
              let fsC := FS.write fsB targetPath ((FS.read fsB tempPath).getD [])
              if ops (SysEvent.chmodx targetPath) then
                let fsD := FS.remove fsC tempPath
                ⟨true, fsD,
                  evDl ++ evMk ++ [evCp, SysEvent.chmodx targetPath,
                    SysEvent.runServiceInstall targetPath]⟩
              else
                ⟨false, fsC, evDl ++ evMk ++ [evCp, SysEvent.chmodx targetPath]⟩
            else
              ⟨false, fsB, evDl ++ evMk ++ [evCp]⟩
        else
          ⟨false, dl.2, evDl⟩

/-- Fixed DMG staging path (path.join(os.tmpdir(), 'kaitu-installer.dmg')). -/
def kaituDmgTmp : String := "/tmp/kaitu-installer.dmg"

structure PInstOut where
  err : Option InstallError
  fs : FS
  events : List SysEvent
  serviceInstalled : Bool
deriving Repr, DecidableEq

/-- postInstall (postinstall.js lines 306-413).  Platform detection; the
service installer runs only with privileges; missing installer descriptor
is a normal return; on macOS a cached DMG at the fixed temp path is
verified and reused, a failing cache is deleted and re-downloaded; the
(re)downloaded DMG is always verified again before installDMG; without
privileges the app install stops after download and verification; on
Windows/Linux the desktop install is a placeholder message.  A `some` in
`err` is the outer catch firing (process.exit(1)). -/
def postInstallRun (ops : SysEvent → Bool) (sha256hex : Content → String)
    (net : String → List GetResult) (platform arch : String) (hasPrivileges : Bool)
    (installerCfg serviceCfg : List (String × ArtifactInfo))
    (vol : List String) (bundle : Content) (fs : FS) : PInstOut :=
  match getPlatformInfo platform arch with
  | Except.error e => ⟨some e, fs, [], false⟩
  | Except.ok pinfo =>
    let svc : SvcOut :=
      if hasPrivileges then installService ops sha256hex net pinfo serviceCfg fs
      else ⟨false, fs, []⟩
    match lookupCfg installerCfg pinfo.key with
    | none => ⟨none, svc.fs, svc.events, svc.installed⟩
    | some info =>
      if pinfo.isMac then
        let cacheStep : Option InstallError × FS × List SysEvent :=
          if FS.pathExists svc.fs kaituDmgTmp then
            match verifyHash sha256hex svc.fs kaituDmgTmp info.hash with
            | none => (none, svc.fs, [])
            | some _ =>
              let fsr := FS.remove svc.fs kaituDmgTmp
              let dl := downloadFile (net info.url) kaituDmgTmp fsr
              (dl.1, dl.2, [SysEvent.download info.url kaituDmgTmp])
          else
            let dl := downloadFile (net info.url) kaituDmgTmp svc.fs
            (dl.1, dl.2, [SysEvent.download info.url kaituDmgTmp])
        match cacheStep.1 with
        | some e => ⟨some e, cacheStep.2.1, svc.events ++ cacheStep.2.2, svc.installed⟩
        | none =>
          match verifyHash sha256hex cacheStep.2.1 kaituDmgTmp info.hash with
          | some e => ⟨some e, cacheStep.2.1, svc.events ++ cacheStep.2.2, svc.installed⟩
          | none =>
            if hasPrivileges then
              let d := installDMG ops vol bundle kaituDmgTmp cacheStep.2.1
              ⟨d.err, d.fs, svc.events ++ cacheStep.2.2 ++ d.events, svc.installed⟩
            else
              ⟨none, cacheStep.2.1, svc.events ++ cacheStep.2.2, svc.installed⟩
      else
        ⟨none, svc.fs, svc.events, svc.installed⟩

/-- Windows-style path join as used by path.join on win32. -/
def winJoin (a b : String) : String := a ++ "\\" ++ b

/-- Service binary path probed by index.js (lines 14-19 and 98-100). -/
def serviceBinPath (platform : String) (programFiles : Option String) : String :=
  if platform = "win32" then
    winJoin (winJoin (programFiles.getD "C:\\Program Files") "kaitu") "kaitu-service.exe"
  else "/usr/local/bin/kaitu-service"

/-- isServiceInstalled (index.js lines 14-19). -/
def isServiceInstalled (platform : String) (programFiles : Option String) (fs : FS) : Bool :=
  FS.pathExists fs (serviceBinPath platform programFiles)

/-- isAppInstalled (index.js lines 22-34): darwin checks /Applications,
win32 checks the two conventional install directories, and every other
platform returns false unconditionally. -/
def isAppInstalled (platform : String) (programFiles localAppData : Option String)
    (fs : FS) : Bool :=
  if platform = "darwin" then FS.pathExists fs "/Applications/Kaitu.app"
  else if platform = "win32" then
    FS.pathExists fs (winJoin (programFiles.getD "C:\\Program Files") "Kaitu")
    || FS.pathExists fs (winJoin (winJoin (localAppData.getD "") "Programs") "Kaitu")
  else false

/-- Outcome of one CLI dispatch in index.js main (lines 152-193). -/
inductive CliOutcome where
  | appNotInstalled
  | launchAttempted
  | serviceCmd
  | installCmd
  | statusShown
  | helpShown
  | unknown
deriving Repr, DecidableEq

/-- main (index.js lines 152-193): command dispatch.  start/launch/open
exit 1 when isAppInstalled is false. -/
def mainDispatch (cmd : Option String) (platform : String)
    (programFiles localAppData : Option String) (fs : FS) : CliOutcome :=
  match cmd with
  | none => CliOutcome.helpShown
  | some c =>
    if c = "start" ∨ c = "launch" ∨ c = "open" then
      if isAppInstalled platform programFiles localAppData fs then CliOutcome.launchAttempted
      else CliOutcome.appNotInstalled
    else if c = "service" then CliOutcome.serviceCmd
    else if c = "install" ∨ c = "setup" then CliOutcome.installCmd
    else if c = "status" then CliOutcome.statusShown
    else if c = "help" ∨ c = "--help" ∨ c = "-h" then CliOutcome.helpShown
    else CliOutcome.unknown

/-- Classifier for events of the app-install step (mount, copy, remove,
unmount).  Download and service events are not app-install events. -/
def isAppInstallEvent : SysEvent → Bool
  | SysEvent.attach _ _ => true
  | SysEvent.detach _ => true
  | SysEvent.removeTree _ => true
  | SysEvent.copyTree _ _ => true
  | _ => false

/-- True exactly on a download event whose destination is `dst`. -/
def downloadsTo (dst : String) : SysEvent → Bool
  | SysEvent.download _ d => d = dst
  | _ => false

/-- Shape of every event installService can emit: a download to the
service temp path, or a service-side command. -/
def svcEventOk (pinfo : PlatformInfo) : SysEvent → Bool
  | SysEvent.download _ d => d = tempPathOf pinfo
  | SysEvent.mkdirp _ => true
  | SysEvent.copyFile _ _ => true
  | SysEvent.chmodx _ => true
  | SysEvent.runServiceInstall _ => true
  | _ => false

/-! Basic filesystem lemmas. -/

theorem FS.read_remove_self (fs : FS) (p : String) : FS.read (FS.remove fs p) p = none := by
  induction fs with
  | nil => rfl
  | cons hd tl ih =>
    obtain ⟨r, c⟩ := hd
    by_cases hr : r = p
    · simp [FS.remove, hr, ih]
    · simp [FS.remove, FS.read, hr, ih]

theorem FS.read_remove_ne (fs : FS) {p q : String} (h : q ≠ p) :
    FS.read (FS.remove fs p) q = FS.read fs q := by
  induction fs with
  | nil => rfl
  | cons hd tl ih =>
    obtain ⟨r, c⟩ := hd
    by_cases hr : r = p
    · rw [hr]
      have hpq : ¬ (p = q) := fun hh => h hh.symm
      simp [FS.remove, FS.read, hpq, ih]
    · simp only [FS.remove, if_neg hr, FS.read]
      rw [ih]

theorem FS.read_write_self (fs : FS) (p : String) (c : Content) :
    FS.read (FS.write fs p c) p = some c := by
  simp [FS.write, FS.read]

theorem FS.read_write_ne (fs : FS) (c : Content) {p q : String} (h : q ≠ p) :
    FS.read (FS.write fs p c) q = FS.read fs q := by
  simp only [FS.write, FS.read, if_neg (Ne.symm h)]
  exact FS.read_remove_ne fs h

theorem downloadFile_read_ne (rs : List GetResult) (dest : String) (fs : FS) {q : String}
    (h : q ≠ dest) : FS.read (downloadFile rs dest fs).2 q = FS.read fs q := by
  induction rs generalizing fs with
  | nil => simp [downloadFile, FS.read_remove_ne _ h, FS.read_write_ne _ _ h]
  | cons r rest ih =>
    cases r with
    | netError => simp [downloadFile, FS.read_remove_ne _ h, FS.read_write_ne _ _ h]
    | success st loc body =>
      simp only [downloadFile]
      split
      · rw [ih, FS.read_remove_ne _ h, FS.read_write_ne _ _ h]
      · split
        · simp [FS.read_remove_ne _ h, FS.read_write_ne _ _ h]
        · simp [FS.read_write_ne _ _ h]

/-! Claim C2: failure behaviour of the secure fetcher. -/

theorem downloadFile_err_clean (rs : List GetResult) (dest : String) (fs : FS) (e : InstallError)
    (h : (downloadFile rs dest fs).1 = some e) :
    FS.pathExists (downloadFile rs dest fs).2 dest = false
    ∧ (e = InstallError.networkError ∨ ∃ st, st ≠ 200 ∧ e = InstallError.downloadFailed st) := by
  induction rs generalizing fs with
  | nil =>
    simp only [downloadFile, Option.some.injEq] at h
    exact ⟨by simp [downloadFile, FS.pathExists, FS.read_remove_self], Or.inl h.symm⟩
  | cons r rest ih =>
    cases r with
    | netError =>
      simp only [downloadFile, Option.some.injEq] at h
      exact ⟨by simp [downloadFile, FS.pathExists, FS.read_remove_self], Or.inl h.symm⟩
    | success st loc body =>
      by_cases h30 : st = 301 ∨ st = 302
      · have hrw : downloadFile (GetResult.success st loc body :: rest) dest fs
            = downloadFile rest dest (FS.remove (FS.write fs dest []) dest) := by
          simp [downloadFile, h30]
        rw [hrw] at h ⊢
        exact ih _ h
      · by_cases h200 : st = 200
        · have hrw : (downloadFile (GetResult.success st loc body :: rest) dest fs).1 = none := by
            simp [downloadFile, h30, h200]
          rw [hrw] at h
          simp at h
        · have hrw : downloadFile (GetResult.success st loc body :: rest) dest fs
              = (some (InstallError.downloadFailed st), FS.remove (FS.write fs dest []) dest) := by
            simp [downloadFile, h30, h200]
          rw [hrw] at h ⊢
          simp only [Option.some.injEq] at h
          exact ⟨by simp [FS.pathExists, FS.read_remove_self], Or.inr ⟨st, h200, h.symm⟩⟩

theorem downloadFile_ok_content (rs : List GetResult) (dest : String) (fs : FS)
    (h : (downloadFile rs dest fs).1 = none) :
    ∃ loc body, GetResult.success 200 loc body ∈ rs
      ∧ FS.read (downloadFile rs dest fs).2 dest = some body := by
  induction rs generalizing fs with
  | nil => simp [downloadFile] at h
  | cons r rest ih =>
    cases r with
    | netError => simp [downloadFile] at h
    | success st loc body =>
      by_cases h30 : st = 301 ∨ st = 302
      · have hrw : downloadFile (GetResult.success st loc body :: rest) dest fs
            = downloadFile rest dest (FS.remove (FS.write fs dest []) dest) := by
          simp [downloadFile, h30]
        rw [hrw] at h ⊢
        obtain ⟨l2, b2, hmem, hread⟩ := ih _ h
        exact ⟨l2, b2, List.mem_cons_of_mem _ hmem, hread⟩
      · by_cases h200 : st = 200
        · subst h200
          have hrw : downloadFile (GetResult.success 200 loc body :: rest) dest fs
              = (none, FS.write (FS.write fs dest []) dest body) := by
            simp [downloadFile]
          rw [hrw]
          exact ⟨loc, body, List.mem_cons_self _ _, FS.read_write_self _ _ _⟩
        · have hrw : (downloadFile (GetResult.success st loc body :: rest) dest fs).1
              = some (InstallError.downloadFailed st) := by
            simp [downloadFile, h30, h200]
          rw [hrw] at h
          simp at h

/-- C2: every failing fetch fails with DownloadFailed{status} on a
non-success non-redirect status or NetworkError on a transport error, and
leaves no file at the destination path; each 301/302 hop deletes the
partially written destination before re-issuing the request; and a
successful fetch leaves exactly the body of a 200 response of the chain at
the destination, so at most one valid artifact ever exists there. -/
theorem C2_fetch_failure_removes_destination (rs : List GetResult) (dest : String) (fs : FS) :
    (∀ e, (downloadFile rs dest fs).1 = some e →
      FS.pathExists (downloadFile rs dest fs).2 dest = false
      ∧ (e = InstallError.networkError ∨ ∃ st, st ≠ 200 ∧ e = InstallError.downloadFailed st))
    ∧ (∀ st loc body rest2, (st = 301 ∨ st = 302) →
        downloadFile (GetResult.success st loc body :: rest2) dest fs
          = downloadFile rest2 dest (FS.remove (FS.write fs dest []) dest))
    ∧ ((downloadFile rs dest fs).1 = none →
        ∃ loc body, GetResult.success 200 loc body ∈ rs
          ∧ FS.read (downloadFile rs dest fs).2 dest = some body) :=
  ⟨fun e h => downloadFile_err_clean rs dest fs e h,
   fun _ _ _ _ h30 => by simp [downloadFile, h30],
   fun h => downloadFile_ok_content rs dest fs h⟩

/-- Witness for C2: a chain with one redirect hop ending in a 404 leaves no
file at the destination. -/
theorem C2_fetch_failure_removes_destination_witness :
    FS.pathExists
      (downloadFile [GetResult.success 302 "https://cdn/x" [], GetResult.success 404 "" [7]]
        "/tmp/kaitu-installer.dmg" []).2 "/tmp/kaitu-installer.dmg" = false :=
  ((C2_fetch_failure_removes_destination _ _ _).1 (InstallError.downloadFailed 404)
    (by decide)).1

/-! Claim C6: the platform identifier. -/

/-- C6: getPlatformInfo is total and deterministic over the supported raw
platforms: darwin always yields the single universal record regardless of
arch; win32 and linux map the architecture through their fixed tables
(x64→amd64, arm64→arm64, ia32→386 on windows) and pass unmapped
architectures through unchanged into the key; every other raw platform
fails with UnsupportedPlatform. -/
theorem C6_platform_identify (p arch : String)
    (hd : p ≠ "darwin") (hw : p ≠ "win32") (hl : p ≠ "linux") :
    getPlatformInfo "darwin" arch = Except.ok darwinPI
    ∧ getPlatformInfo "win32" arch
        = Except.ok ⟨"windows", winArchMap arch, "windows-" ++ winArchMap arch, false, true, false⟩
    ∧ getPlatformInfo "linux" arch
        = Except.ok ⟨"linux", linuxArchMap arch, "linux-" ++ linuxArchMap arch, false, false, true⟩
    ∧ winArchMap "x64" = "amd64" ∧ winArchMap "arm64" = "arm64" ∧ winArchMap "ia32" = "386"
    ∧ linuxArchMap "x64" = "amd64" ∧ linuxArchMap "arm64" = "arm64"
    ∧ (arch ≠ "x64" → arch ≠ "arm64" → arch ≠ "ia32" → winArchMap arch = arch)
    ∧ (arch ≠ "x64" → arch ≠ "arm64" → arch ≠ "arm" → linuxArchMap arch = arch)
    ∧ getPlatformInfo p arch = Except.error (InstallError.unsupportedPlatform p) := by
  refine ⟨by simp [getPlatformInfo, darwinPI], by simp [getPlatformInfo],
    by simp [getPlatformInfo], by decide, by decide, by decide, by decide, by decide,
    ?_, ?_, ?_⟩
  · intro h1 h2 h3
    simp [winArchMap, h1, h2, h3]
  · intro h1 h2 h3
    simp [linuxArchMap, h1, h2, h3]
  · simp [getPlatformInfo, hd, hw, hl]

/-- Witness for C6: an unsupported platform errors; the other conjuncts are
obtained at the same instantiation. -/
theorem C6_platform_identify_witness :
    getPlatformInfo "freebsd" "x64"
      = Except.error (InstallError.unsupportedPlatform "freebsd") :=
  (C6_platform_identify "freebsd" "x64" (by decide) (by decide)
    (by decide)).2.2.2.2.2.2.2.2.2.2

/-! Claim C9: the start command on linux. -/

/-- C9: on linux, isAppInstalled returns false for every filesystem and
environment, so the start / launch / open command always dispatches to the
not-installed failure (exit code 1) no matter what is on disk. -/
theorem C9_linux_start_always_not_installed (c : String)
    (programFiles localAppData : Option String) (fs : FS)
    (h : c = "start" ∨ c = "launch" ∨ c = "open") :
    isAppInstalled "linux" programFiles localAppData fs = false
    ∧ mainDispatch (some c) "linux" programFiles localAppData fs
        = CliOutcome.appNotInstalled := by
  have happ : isAppInstalled "linux" programFiles localAppData fs = false := by
    simp [isAppInstalled]
  exact ⟨happ, by simp [mainDispatch, h, happ]⟩

/-- Witness for C9: concrete linux filesystem that does contain an
application bundle path, still reported as not installed. -/
theorem C9_linux_start_always_not_installed_witness :
    mainDispatch (some "start") "linux" none none [("/Applications/Kaitu.app", [1])]
      = CliOutcome.appNotInstalled :=
  (C9_linux_start_always_not_installed "start" none none
    [("/Applications/Kaitu.app", [1])] (Or.inl rfl)).2

/-! Claim C3: digest comparison in verifyHash. -/

/-- Sample 64-character lowercase hex sha256 digest. -/
def lcDigest : String :=
  "abababababababababababababababababababababababababababababababab"

/-- The same digest written in uppercase hex. -/
def ucDigest : String :=
  "ABABABABABABABABABABABABABABABABABABABABABABABABABABABABABABABAB"

/-- C3 counterexample: for a file whose sha256 hex digest is lcDigest, the
exactly matching expected string verifies, but the same digest written in
uppercase hex after the sha256: tag is rejected with a hash mismatch — the
code performs no normalization of the expected digest, refuting the claim
that an uppercase expected digest still verifies a matching file. -/
theorem C3_counterexample :
    verifyHash (fun _ => lcDigest) [("/tmp/f.bin", [0])] "/tmp/f.bin"
        ("sha256:" ++ lcDigest) = none
    ∧ verifyHash (fun _ => lcDigest) [("/tmp/f.bin", [0])] "/tmp/f.bin"
        ("sha256:" ++ ucDigest)
      = some (InstallError.hashMismatch ("sha256:" ++ ucDigest) ("sha256:" ++ lcDigest)) := by
  constructor <;> rfl

/-- C3 amended: verification succeeds exactly when the expected string is
equal, as a case-sensitive exact string, to "sha256:" followed by the
(lowercase) hex digest of the file bytes; no normalization of the
expected digest is performed, so an uppercase-hex expected digest fails. -/
theorem C3_amended_exact_comparison (sha256hex : Content → String) (fs : FS)
    (p expected : String) (c : Content) (h : FS.read fs p = some c) :
    verifyHash sha256hex fs p expected = none ↔ expected = "sha256:" ++ sha256hex c := by
  simp only [verifyHash, h]
  by_cases he : "sha256:" ++ sha256hex c = expected
  · simp [he]
  · rw [if_neg he]
    constructor
    · intro hx
      exact absurd hx (by simp)
    · intro hx
      exact absurd hx.symm he

/-- Witness for C3 amended at a concrete file and digest. -/
theorem C3_amended_exact_comparison_witness :
    verifyHash (fun _ => "aa") [("/tmp/g", [1])] "/tmp/g" "sha256:aa" = none :=
  (C3_amended_exact_comparison (fun _ => "aa") [("/tmp/g", [1])] "/tmp/g"
    "sha256:aa" [1] (by decide)).mpr (by decide)

/-! Claims C4 and C5: the App Installer state machine. -/

/-- Oracle under which every external command succeeds. -/
def opsAllOk : SysEvent → Bool := fun _ => true

/-- Oracle under which hdiutil detach fails and every other command succeeds. -/
def opsDetachFails : SysEvent → Bool
  | SysEvent.detach _ => false
  | _ => true

/-- C4 counterexample: a run in which the copy into /Applications succeeds
and only the subsequent hdiutil detach fails.  execSync throws, the catch
block re-raises, and installDMG ends in an error — even though the copied
app is in place — refuting the claim that the unmount failure cannot fail
the install. -/
theorem C4_counterexample :
    (installDMG opsDetachFails ["Kaitu.app"] [1] kaituDmgTmp []).err
        = some (InstallError.cmdFailed "hdiutil detach")
    ∧ FS.read (installDMG opsDetachFails ["Kaitu.app"] [1] kaituDmgTmp []).fs kaituAppDest
        = some [1] := by
  constructor <;> rfl

/-- C4 amended: when attach and copy succeed but the unmount fails, the
detach failure is not swallowed: installDMG propagates a "hdiutil detach"
command error (so the overall run fails), although the copied application
remains at the destination.  Only the best-effort detach on the failure
path is swallowed. -/
theorem C4_amended_unmount_failure_is_fatal (ops : SysEvent → Bool) (vol : List String)
    (bundle : Content) (dmgPath : String) (fs : FS)
    (hAttach : ops (SysEvent.attach dmgPath mountPoint) = true)
    (hVol : "Kaitu.app" ∈ vol)
    (hNoPrev : FS.pathExists fs kaituAppDest = false)
    (hCp : ops (SysEvent.copyTree (mountPoint ++ "/Kaitu.app") kaituAppDest) = true)
    (hDet : ops (SysEvent.detach mountPoint) = false) :
    (installDMG ops vol bundle dmgPath fs).err = some (InstallError.cmdFailed "hdiutil detach")
    ∧ FS.read (installDMG ops vol bundle dmgPath fs).fs kaituAppDest = some bundle := by
  simp [installDMG, hAttach, hVol, hNoPrev, hCp, hDet, FS.read_write_self]

/-- Witness for C4 amended at a concrete run. -/
theorem C4_amended_unmount_failure_is_fatal_witness :
    (installDMG opsDetachFails ["Kaitu.app"] [2] "/tmp/d.dmg" []).err
        = some (InstallError.cmdFailed "hdiutil detach") :=
  (C4_amended_unmount_failure_is_fatal opsDetachFails ["Kaitu.app"] [2] "/tmp/d.dmg" []
    (by decide) (by decide) (by decide) (by decide) (by decide)).1

/-- C5 evaluation at the failing input: a mounted volume whose top level
contains only "Other.app".  The fallback scan finds it, so BundleNotFound
is not raised, but the found name is never used: the copy still targets
"<mountPoint>/Kaitu.app", which does not exist in the volume, so the cp
step fails and nothing is installed at the destination.  The third
conjunct records the half of the claim the code does satisfy: with no
.app entry at all, installDMG fails with BundleNotFound. -/
theorem C5_fallback_bundle_never_used :
    (installDMG opsAllOk ["Other.app"] [1] kaituDmgTmp []).err
        = some (InstallError.cmdFailed "cp")
    ∧ FS.pathExists (installDMG opsAllOk ["Other.app"] [1] kaituDmgTmp []).fs kaituAppDest
        = false
    ∧ (installDMG opsAllOk [] [1] kaituDmgTmp []).err = some InstallError.bundleNotFound := by
  refine ⟨by decide, by decide, by decide⟩

/-! Frame lemmas: installService only touches its own paths and only emits
service-side events; installDMG only emits app-install events. -/

theorem installService_read_preserve (ops : SysEvent → Bool) (dg : Content → String)
    (net : String → List GetResult) (pinfo : PlatformInfo)
    (cfg : List (String × ArtifactInfo)) (fs : FS) (p : String)
    (h1 : p ≠ tempPathOf pinfo) (h2 : p ≠ targetPathOf pinfo)
    (h3 : p ≠ "/usr/local/bin") :
    FS.read (installService ops dg net pinfo cfg fs).fs p = FS.read fs p := by
  have hdl : ∀ u, FS.read (downloadFile (net u) (tempPathOf pinfo) fs).2 p = FS.read fs p :=
    fun u => downloadFile_read_ne _ _ _ h1
  simp only [installService]
  repeat' split
  all_goals simp_all [FS.read_write_ne, FS.read_remove_ne, h1, h2, h3]

theorem installService_events_ok (ops : SysEvent → Bool) (dg : Content → String)
    (net : String → List GetResult) (pinfo : PlatformInfo)
    (cfg : List (String × ArtifactInfo)) (fs : FS) :
    (installService ops dg net pinfo cfg fs).events.all (svcEventOk pinfo) = true := by
  simp only [installService]
  repeat' split
  all_goals simp [svcEventOk]

theorem installDMG_events_app (ops : SysEvent → Bool) (vol : List String) (bundle : Content)
    (dmgPath : String) (fs : FS) :
    (installDMG ops vol bundle dmgPath fs).events.all isAppInstallEvent = true := by
  simp only [installDMG]
  repeat' split
  all_goals simp [isAppInstallEvent]

theorem svcEventOk_not_app {pinfo : PlatformInfo} {e : SysEvent}
    (h : svcEventOk pinfo e = true) : isAppInstallEvent e = false := by
  cases e <;> simp_all [svcEventOk, isAppInstallEvent]

theorem svcEventOk_not_download {pinfo : PlatformInfo} {dst : String} {e : SysEvent}
    (hne : tempPathOf pinfo ≠ dst) (h : svcEventOk pinfo e = true) :
    downloadsTo dst e = false := by
  cases e <;> simp_all [svcEventOk, downloadsTo]

theorem appEvent_not_download {dst : String} {e : SysEvent}
    (h : isAppInstallEvent e = true) : downloadsTo dst e = false := by
  cases e <;> simp_all [isAppInstallEvent, downloadsTo]

theorem all_not_app_of_all_svcOk {pinfo : PlatformInfo} {l : List SysEvent}
    (h : l.all (svcEventOk pinfo) = true) :
    l.all (fun e => !isAppInstallEvent e) = true := by
  simp only [List.all_eq_true] at h ⊢
  intro e he
  simp [svcEventOk_not_app (h e he)]

theorem all_not_dl_of_all_svcOk {pinfo : PlatformInfo} {dst : String} {l : List SysEvent}
    (hne : tempPathOf pinfo ≠ dst) (h : l.all (svcEventOk pinfo) = true) :
    l.all (fun e => !downloadsTo dst e) = true := by
  simp only [List.all_eq_true] at h ⊢
  intro e he
  simp [svcEventOk_not_download hne (h e he)]

theorem all_not_dl_of_all_app {dst : String} {l : List SysEvent}
    (h : l.all isAppInstallEvent = true) :
    l.all (fun e => !downloadsTo dst e) = true := by
  simp only [List.all_eq_true] at h ⊢
  intro e he
  simp [appEvent_not_download (h e he)]

/-! Claim C7: lifecycle of staged temp files. -/

/-- C7 counterexample: a service install attempt whose downloaded binary
fails digest verification.  The catch block in installService returns
false without deleting the staged temp file, so the staged artifact
remains on disk after the unrecoverable failure — refuting the claim that
staged files are deleted on every outcome. -/
theorem C7_counterexample :
    (installService opsAllOk (fun _ => "aa") (fun _ => [GetResult.success 200 "" [7]])
        darwinPI [("darwin-universal", ⟨"https://x/svc", "sha256:bb"⟩)] []).installed = false
    ∧ FS.pathExists
        (installService opsAllOk (fun _ => "aa") (fun _ => [GetResult.success 200 "" [7]])
          darwinPI [("darwin-universal", ⟨"https://x/svc", "sha256:bb"⟩)] []).fs
        "/tmp/kaitu-service-darwin-universal" = true := by
  constructor <;> rfl

/-- C7 amended: staged temp files are deleted only on success, for both
staged artifacts.  First two conjuncts, the service binary: on a mac
service install where the download yields a 200 body and every external
command succeeds, a matching digest leads to a successful install with the
temp binary deleted, while a digest mismatch aborts the attempt and leaves
the staged temp binary on disk.  Third conjunct, the DMG on success: every
successful installDMG run unlinks the DMG file, so no file remains at its
staging path.  Fourth conjunct, the DMG on failure: on darwin, when the
freshly downloaded DMG fails verification, the run aborts with the hash
mismatch and the downloaded bytes remain at /tmp/kaitu-installer.dmg (no
catch path deletes them; this retention feeds the next run's cache). -/
theorem C7_amended_temp_deleted_only_on_success (dg : Content → String)
    (net : String → List GetResult) (info : ArtifactInfo) (fs : FS)
    (loc : String) (body : Content)
    (hnet : net info.url = [GetResult.success 200 loc body]) :
    ("sha256:" ++ dg body = info.hash →
      (installService opsAllOk dg net darwinPI [("darwin-universal", info)] fs).installed = true
      ∧ FS.pathExists
          (installService opsAllOk dg net darwinPI [("darwin-universal", info)] fs).fs
          (tempPathOf darwinPI) = false)
    ∧ ("sha256:" ++ dg body ≠ info.hash →
      (installService opsAllOk dg net darwinPI [("darwin-universal", info)] fs).installed = false
      ∧ FS.pathExists
          (installService opsAllOk dg net darwinPI [("darwin-universal", info)] fs).fs
          (tempPathOf darwinPI) = true)
    ∧ (∀ (ops2 : SysEvent → Bool) (vol : List String) (bundle : Content) (dmgPath : String)
        (fs2 : FS), (installDMG ops2 vol bundle dmgPath fs2).err = none →
        FS.pathExists (installDMG ops2 vol bundle dmgPath fs2).fs dmgPath = false)
    ∧ (∀ (ops2 : SysEvent → Bool) (dg2 : Content → String) (net2 : String → List GetResult)
        (arch : String) (hasPrivileges : Bool)
        (installerCfg serviceCfg : List (String × ArtifactInfo))
        (vol : List String) (bundle : Content) (fs2 : FS)
        (info2 : ArtifactInfo) (loc2 : String) (nb : Content),
        lookupCfg installerCfg "darwin-universal" = some info2 →
        net2 info2.url = [GetResult.success 200 loc2 nb] →
        "sha256:" ++ dg2 nb ≠ info2.hash →
        FS.read fs2 kaituDmgTmp = none →
        (postInstallRun ops2 dg2 net2 "darwin" arch hasPrivileges installerCfg serviceCfg
            vol bundle fs2).err
          = some (InstallError.hashMismatch info2.hash ("sha256:" ++ dg2 nb))
        ∧ FS.read (postInstallRun ops2 dg2 net2 "darwin" arch hasPrivileges installerCfg
            serviceCfg vol bundle fs2).fs kaituDmgTmp = some nb) := by
  have hk : darwinPI.key = "darwin-universal" := rfl
  have hmac : darwinPI.isMac = true := rfl
  have hlin : darwinPI.isLinux = false := rfl
  have hlk : lookupCfg [("darwin-universal", info)] "darwin-universal" = some info := by
    simp [lookupCfg]
  have hdl : downloadFile (net info.url) (tempPathOf darwinPI) fs
      = (none, FS.write (FS.write fs (tempPathOf darwinPI) []) (tempPathOf darwinPI) body) := by
    rw [hnet]
    simp [downloadFile]
  refine ⟨?_, ?_, ?_, ?_⟩
  · intro hmatch
    have hver : verifyHash dg
        (FS.write (FS.write fs (tempPathOf darwinPI) []) (tempPathOf darwinPI) body)
        (tempPathOf darwinPI) info.hash = none := by
      simp [verifyHash, FS.read_write_self, hmatch]
    simp [installService, hk, hmac, hlin, hlk, hdl, hver, opsAllOk, FS.pathExists,
      FS.read_remove_self]
  · intro hmis
    have hver : verifyHash dg
        (FS.write (FS.write fs (tempPathOf darwinPI) []) (tempPathOf darwinPI) body)
        (tempPathOf darwinPI) info.hash
        = some (InstallError.hashMismatch info.hash ("sha256:" ++ dg body)) := by
      simp [verifyHash, FS.read_write_self, hmis]
    simp [installService, hk, hmac, hlin, hlk, hdl, hver, FS.pathExists, FS.read_write_self]
  · intro ops2 vol bundle dmgPath fs2 hok
    simp only [installDMG] at hok ⊢
    repeat' split at hok
    all_goals simp_all [FS.pathExists, FS.read_remove_self]
  · intro ops2 dg2 net2 arch hasPrivileges installerCfg serviceCfg vol bundle fs2 info2
      loc2 nb hlook2 hnet2 hmis2 hfresh
    have hgp : getPlatformInfo "darwin" arch = Except.ok darwinPI := by
      simp [getPlatformInfo, darwinPI]
    obtain ⟨s, hs, hs1⟩ :
        ∃ s : SvcOut,
          (if hasPrivileges then installService ops2 dg2 net2 darwinPI serviceCfg fs2
            else ⟨false, fs2, []⟩) = s
          ∧ FS.read s.fs kaituDmgTmp = none := by
      cases hasPrivileges with
      | false => exact ⟨⟨false, fs2, []⟩, rfl, hfresh⟩
      | true =>
        exact ⟨installService ops2 dg2 net2 darwinPI serviceCfg fs2, rfl,
          (installService_read_preserve _ _ _ _ _ _ _ (by decide) (by decide)
            (by decide)).trans hfresh⟩
    have hdl2 : downloadFile (net2 info2.url) kaituDmgTmp s.fs
        = (none, FS.write (FS.write s.fs kaituDmgTmp []) kaituDmgTmp nb) := by
      rw [hnet2]
      simp [downloadFile]
    have hver2 : verifyHash dg2 (FS.write (FS.write s.fs kaituDmgTmp []) kaituDmgTmp nb)
        kaituDmgTmp info2.hash
        = some (InstallError.hashMismatch info2.hash ("sha256:" ++ dg2 nb)) := by
      simp [verifyHash, FS.read_write_self, hmis2]
    have hnopath : FS.pathExists s.fs kaituDmgTmp = false := by
      simp [FS.pathExists, hs1]
    simp [postInstallRun, hgp, hk, hmac, hs, hlook2, hnopath, hdl2, hver2,
      FS.read_write_self]

/-- Witness for C7 amended: a matching digest deletes the staged temp file. -/
theorem C7_amended_temp_deleted_only_on_success_witness :
    (installService opsAllOk (fun _ => "bb") (fun _ => [GetResult.success 200 "" [7]])
        darwinPI [("darwin-universal", ⟨"https://x/svc", "sha256:bb"⟩)] []).installed = true
    ∧ FS.pathExists
        (installService opsAllOk (fun _ => "bb") (fun _ => [GetResult.success 200 "" [7]])
          darwinPI [("darwin-universal", ⟨"https://x/svc", "sha256:bb"⟩)] []).fs
        (tempPathOf darwinPI) = false :=
  (C7_amended_temp_deleted_only_on_success (fun _ => "bb")
    (fun _ => [GetResult.success 200 "" [7]]) ⟨"https://x/svc", "sha256:bb"⟩ [] "" [7]
    rfl).1 (by decide)

/-! Claim C1: integrity mismatch aborts the app install. -/

/-- C1: on darwin, when the fetched installer bytes hash to a digest
different from the manifest's expected hash, postInstall aborts with the
hash mismatch error, performs no app-install step (no mount, copy or
removal), and leaves no file at /Applications/Kaitu.app given that none
was there before — for any privilege state, oracle and service manifest. -/
theorem C1_integrity_mismatch_installs_nothing (ops : SysEvent → Bool) (dg : Content → String)
    (net : String → List GetResult) (arch : String) (hasPrivileges : Bool)
    (installerCfg serviceCfg : List (String × ArtifactInfo))
    (vol : List String) (bundle : Content) (fs : FS)
    (info : ArtifactInfo) (loc : String) (body : Content)
    (hlook : lookupCfg installerCfg "darwin-universal" = some info)
    (hnet : net info.url = [GetResult.success 200 loc body])
    (hmis : "sha256:" ++ dg body ≠ info.hash)
    (hnodmg : FS.read fs kaituDmgTmp = none)
    (hnoapp : FS.read fs kaituAppDest = none) :
    (postInstallRun ops dg net "darwin" arch hasPrivileges installerCfg serviceCfg vol bundle
        fs).err = some (InstallError.hashMismatch info.hash ("sha256:" ++ dg body))
    ∧ FS.read (postInstallRun ops dg net "darwin" arch hasPrivileges installerCfg serviceCfg
        vol bundle fs).fs kaituAppDest = none
    ∧ (postInstallRun ops dg net "darwin" arch hasPrivileges installerCfg serviceCfg vol bundle
        fs).events.all (fun e => !isAppInstallEvent e) = true := by
  have hgp : getPlatformInfo "darwin" arch = Except.ok darwinPI := by
    simp [getPlatformInfo, darwinPI]
  have hk : darwinPI.key = "darwin-universal" := rfl
  have hmac : darwinPI.isMac = true := rfl
  obtain ⟨s, hs, hs1, hs2, hs3⟩ :
      ∃ s : SvcOut,
        (if hasPrivileges then installService ops dg net darwinPI serviceCfg fs
          else ⟨false, fs, []⟩) = s
        ∧ FS.read s.fs kaituDmgTmp = none
        ∧ FS.read s.fs kaituAppDest = none
        ∧ s.events.all (svcEventOk darwinPI) = true := by
    cases hasPrivileges with
    | false => exact ⟨⟨false, fs, []⟩, rfl, hnodmg, hnoapp, rfl⟩
    | true =>
      refine ⟨installService ops dg net darwinPI serviceCfg fs, rfl, ?_, ?_,
        installService_events_ok _ _ _ _ _ _⟩
      · exact (installService_read_preserve _ _ _ _ _ _ _ (by decide) (by decide)
          (by decide)).trans hnodmg
      · exact (installService_read_preserve _ _ _ _ _ _ _ (by decide) (by decide)
          (by decide)).trans hnoapp
  have hdl : downloadFile (net info.url) kaituDmgTmp s.fs
      = (none, FS.write (FS.write s.fs kaituDmgTmp []) kaituDmgTmp body) := by
    rw [hnet]
    simp [downloadFile]
  have hver : verifyHash dg (FS.write (FS.write s.fs kaituDmgTmp []) kaituDmgTmp body)
      kaituDmgTmp info.hash
      = some (InstallError.hashMismatch info.hash ("sha256:" ++ dg body)) := by
    simp [verifyHash, FS.read_write_self, hmis]
  have hnopath : FS.pathExists s.fs kaituDmgTmp = false := by
    simp [FS.pathExists, hs1]
  have hne1 : kaituAppDest ≠ kaituDmgTmp := by decide
  simp [postInstallRun, hgp, hk, hmac, hs, hlook, hnopath, hdl, hver,
    FS.read_write_ne _ _ hne1, all_not_app_of_all_svcOk hs3, hs2, isAppInstallEvent,
    List.all_append]
  intro x hx
  have h1 := svcEventOk_not_app (List.all_eq_true.mp hs3 x hx)
  simpa [isAppInstallEvent] using h1

/-- Witness for C1 at a fully concrete mismatching run. -/
theorem C1_integrity_mismatch_installs_nothing_witness :
    (postInstallRun opsAllOk (fun _ => "aa") (fun _ => [GetResult.success 200 "" [7]])
        "darwin" "arm64" true [("darwin-universal", ⟨"https://x/app.dmg", "sha256:bb"⟩)]
        [] [] [] []).err
      = some (InstallError.hashMismatch "sha256:bb" ("sha256:" ++ "aa")) :=
  (C1_integrity_mismatch_installs_nothing opsAllOk (fun _ => "aa")
    (fun _ => [GetResult.success 200 "" [7]]) "arm64" true
    [("darwin-universal", ⟨"https://x/app.dmg", "sha256:bb"⟩)] [] [] [] []
    ⟨"https://x/app.dmg", "sha256:bb"⟩ "" [7]
    (by decide) rfl (by decide) rfl rfl).1

/-! Claim C10: installer caching at the fixed DMG temp path. -/

/-- C10: on darwin with a file cached at the fixed DMG temp path, a
matching cached digest means the run performs no network download to the
installer path (the cache is reused); a mismatching cached digest means
the cache is deleted and the installer is downloaded afresh and verified
again before any install step — in particular if the fresh bytes also
fail verification the run aborts with the mismatch, no app-install step
runs, and the freshly downloaded bytes are what sits at the temp path. -/
theorem C10_dmg_cache_reuse_and_refresh (ops : SysEvent → Bool) (dg : Content → String)
    (net : String → List GetResult) (arch : String) (hasPrivileges : Bool)
    (installerCfg serviceCfg : List (String × ArtifactInfo))
    (vol : List String) (bundle : Content) (fs : FS)
    (info : ArtifactInfo) (c : Content) (loc : String) (nb : Content)
    (hlook : lookupCfg installerCfg "darwin-universal" = some info)
    (hcache : FS.read fs kaituDmgTmp = some c)
    (hnet : net info.url = [GetResult.success 200 loc nb]) :
    ("sha256:" ++ dg c = info.hash →
      (postInstallRun ops dg net "darwin" arch hasPrivileges installerCfg serviceCfg vol
          bundle fs).events.all (fun e => !downloadsTo kaituDmgTmp e) = true)
    ∧ ("sha256:" ++ dg c ≠ info.hash → "sha256:" ++ dg nb ≠ info.hash →
      (postInstallRun ops dg net "darwin" arch hasPrivileges installerCfg serviceCfg vol
          bundle fs).err = some (InstallError.hashMismatch info.hash ("sha256:" ++ dg nb))
      ∧ (postInstallRun ops dg net "darwin" arch hasPrivileges installerCfg serviceCfg vol
          bundle fs).events.any (downloadsTo kaituDmgTmp) = true
      ∧ (postInstallRun ops dg net "darwin" arch hasPrivileges installerCfg serviceCfg vol
          bundle fs).events.all (fun e => !isAppInstallEvent e) = true
      ∧ FS.read (postInstallRun ops dg net "darwin" arch hasPrivileges installerCfg serviceCfg
          vol bundle fs).fs kaituDmgTmp = some nb) := by
  have hgp : getPlatformInfo "darwin" arch = Except.ok darwinPI := by
    simp [getPlatformInfo, darwinPI]
  have hk : darwinPI.key = "darwin-universal" := rfl
  have hmac : darwinPI.isMac = true := rfl
  obtain ⟨s, hs, hs1, hs3⟩ :
      ∃ s : SvcOut,
        (if hasPrivileges then installService ops dg net darwinPI serviceCfg fs
          else ⟨false, fs, []⟩) = s
        ∧ FS.read s.fs kaituDmgTmp = some c
        ∧ s.events.all (svcEventOk darwinPI) = true := by
    cases hasPrivileges with
    | false => exact ⟨⟨false, fs, []⟩, rfl, hcache, rfl⟩
    | true =>
      refine ⟨installService ops dg net darwinPI serviceCfg fs, rfl, ?_,
        installService_events_ok _ _ _ _ _ _⟩
      exact (installService_read_preserve _ _ _ _ _ _ _ (by decide) (by decide)
        (by decide)).trans hcache
  have hexists : FS.pathExists s.fs kaituDmgTmp = true := by
    simp [FS.pathExists, hs1]
  constructor
  · intro hmatch
    have hverc : verifyHash dg s.fs kaituDmgTmp info.hash = none := by
      simp [verifyHash, hs1, hmatch]
    have hsvcdl : s.events.all (fun e => !downloadsTo kaituDmgTmp e) = true :=
      all_not_dl_of_all_svcOk (by decide) hs3
    have hdmgdl : ∀ fs2, (installDMG ops vol bundle kaituDmgTmp fs2).events.all
        (fun e => !downloadsTo kaituDmgTmp e) = true :=
      fun fs2 => all_not_dl_of_all_app (installDMG_events_app ops vol bundle kaituDmgTmp fs2)
    simp [postInstallRun, hgp, hk, hmac, hs, hlook, hexists, hverc, List.all_append,
      hsvcdl, hdmgdl]
    split
    · intro x hx
      rcases List.mem_append.mp hx with hx1 | hx1
      · simpa using List.all_eq_true.mp hsvcdl x hx1
      · simpa using List.all_eq_true.mp (hdmgdl s.fs) x hx1
    · intro x hx
      simpa using List.all_eq_true.mp hsvcdl x hx
  · intro hmisc hmisn
    have hverc : verifyHash dg s.fs kaituDmgTmp info.hash
        = some (InstallError.hashMismatch info.hash ("sha256:" ++ dg c)) := by
      simp [verifyHash, hs1, hmisc]
    have hdl2 : downloadFile (net info.url) kaituDmgTmp (FS.remove s.fs kaituDmgTmp)
        = (none, FS.write (FS.write (FS.remove s.fs kaituDmgTmp) kaituDmgTmp [])
            kaituDmgTmp nb) := by
      rw [hnet]
      simp [downloadFile]
    have hver2 : verifyHash dg (FS.write (FS.write (FS.remove s.fs kaituDmgTmp)
          kaituDmgTmp []) kaituDmgTmp nb) kaituDmgTmp info.hash
        = some (InstallError.hashMismatch info.hash ("sha256:" ++ dg nb)) := by
      simp [verifyHash, FS.read_write_self, hmisn]
    simp [postInstallRun, hgp, hk, hmac, hs, hlook, hexists, hverc, hdl2, hver2,
      List.all_append, List.any_append, FS.read_write_self, downloadsTo, isAppInstallEvent]
    intro x hx
    have h1 := svcEventOk_not_app (List.all_eq_true.mp hs3 x hx)
    simpa [isAppInstallEvent] using h1

/-- Witness for C10: a cached DMG with matching digest yields a run with no
download to the installer temp path. -/
theorem C10_dmg_cache_reuse_and_refresh_witness :
    ((postInstallRun opsAllOk (fun _ => "cc") (fun _ => [GetResult.success 200 "" [7]])
      "darwin" "arm64" true [("darwin-universal", ⟨"https://x/app.dmg", "sha256:cc"⟩)] []
      ["Kaitu.app"] [3] [("/tmp/kaitu-installer.dmg", [9])]).events.all
        (fun e => !downloadsTo kaituDmgTmp e)) = true :=
  (C10_dmg_cache_reuse_and_refresh opsAllOk (fun _ => "cc")
    (fun _ => [GetResult.success 200 "" [7]]) "arm64" true
    [("darwin-universal", ⟨"https://x/app.dmg", "sha256:cc"⟩)] [] ["Kaitu.app"] [3]
    [("/tmp/kaitu-installer.dmg", [9])] ⟨"https://x/app.dmg", "sha256:cc"⟩ [9] "" [7]
    (by decide) (by decide) rfl).1 (by decide)

/-! Claim C8: unprivileged runs write nothing protected. -/

theorem postInstallRun_darwin_unpriv (ops : SysEvent → Bool) (dg : Content → String)
    (net : String → List GetResult) (arch : String)
    (installerCfg serviceCfg : List (String × ArtifactInfo))
    (vol : List String) (bundle : Content) (fs : FS) :
    (postInstallRun ops dg net "darwin" arch false installerCfg serviceCfg vol bundle
        fs).serviceInstalled = false
    ∧ (∀ e ∈ (postInstallRun ops dg net "darwin" arch false installerCfg serviceCfg vol
        bundle fs).events, ∃ u, e = SysEvent.download u kaituDmgTmp)
    ∧ (∀ p, p ≠ kaituDmgTmp →
        FS.read (postInstallRun ops dg net "darwin" arch false installerCfg serviceCfg vol
          bundle fs).fs p = FS.read fs p) := by
  have hgp : getPlatformInfo "darwin" arch = Except.ok darwinPI := by
    simp [getPlatformInfo, darwinPI]
  have hk : darwinPI.key = "darwin-universal" := rfl
  have hmac : darwinPI.isMac = true := rfl
  cases hlk : lookupCfg installerCfg "darwin-universal" with
  | none => simp [postInstallRun, hgp, hk, hmac, hlk]
  | some info =>
    have hread1 : ∀ p, p ≠ kaituDmgTmp →
        FS.read (downloadFile (net info.url) kaituDmgTmp (FS.remove fs kaituDmgTmp)).2 p
          = FS.read fs p :=
      fun p hp => (downloadFile_read_ne _ _ _ hp).trans (FS.read_remove_ne _ hp)
    have hread2 : ∀ p, p ≠ kaituDmgTmp →
        FS.read (downloadFile (net info.url) kaituDmgTmp fs).2 p = FS.read fs p :=
      fun p hp => downloadFile_read_ne _ _ _ hp
    cases hpe : FS.pathExists fs kaituDmgTmp with
    | true =>
      cases hv : verifyHash dg fs kaituDmgTmp info.hash with
      | none => simp [postInstallRun, hgp, hk, hmac, hlk, hpe, hv]
      | some e0 =>
        cases hdl : (downloadFile (net info.url) kaituDmgTmp (FS.remove fs kaituDmgTmp)).1 with
        | some e1 =>
          simp [postInstallRun, hgp, hk, hmac, hlk, hpe, hv, hdl]
          exact fun p hp => hread1 p hp
        | none =>
          cases hv2 : verifyHash dg
              (downloadFile (net info.url) kaituDmgTmp (FS.remove fs kaituDmgTmp)).2
              kaituDmgTmp info.hash with
          | some e2 =>
            simp [postInstallRun, hgp, hk, hmac, hlk, hpe, hv, hdl, hv2]
            exact fun p hp => hread1 p hp
          | none =>
            simp [postInstallRun, hgp, hk, hmac, hlk, hpe, hv, hdl, hv2]
            exact fun p hp => hread1 p hp
    | false =>
      cases hdl : (downloadFile (net info.url) kaituDmgTmp fs).1 with
      | some e1 =>
        simp [postInstallRun, hgp, hk, hmac, hlk, hpe, hdl]
        exact fun p hp => hread2 p hp
      | none =>
        cases hv2 : verifyHash dg (downloadFile (net info.url) kaituDmgTmp fs).2
            kaituDmgTmp info.hash with
        | some e2 =>
          simp [postInstallRun, hgp, hk, hmac, hlk, hpe, hdl, hv2]
          exact fun p hp => hread2 p hp
        | none =>
          simp [postInstallRun, hgp, hk, hmac, hlk, hpe, hdl, hv2]
          exact fun p hp => hread2 p hp

theorem postInstallRun_nonmac_unpriv (ops : SysEvent → Bool) (dg : Content → String)
    (net : String → List GetResult) (platform arch : String)
    (installerCfg serviceCfg : List (String × ArtifactInfo))
    (vol : List String) (bundle : Content) (fs : FS) (hnd : platform ≠ "darwin") :
    (postInstallRun ops dg net platform arch false installerCfg serviceCfg vol bundle fs).fs
        = fs
    ∧ (postInstallRun ops dg net platform arch false installerCfg serviceCfg vol bundle
        fs).events = []
    ∧ (postInstallRun ops dg net platform arch false installerCfg serviceCfg vol bundle
        fs).serviceInstalled = false := by
  by_cases hw : platform = "win32"
  · subst hw
    have hgp : getPlatformInfo "win32" arch = Except.ok ⟨"windows", winArchMap arch,
        "windows-" ++ winArchMap arch, false, true, false⟩ := by
      simp [getPlatformInfo]
    cases hlk : lookupCfg installerCfg ("windows-" ++ winArchMap arch) with
    | none => simp [postInstallRun, hgp, hlk]
    | some info => simp [postInstallRun, hgp, hlk]
  · by_cases hl : platform = "linux"
    · subst hl
      have hgp : getPlatformInfo "linux" arch = Except.ok ⟨"linux", linuxArchMap arch,
          "linux-" ++ linuxArchMap arch, false, false, true⟩ := by
        simp [getPlatformInfo]
      cases hlk : lookupCfg installerCfg ("linux-" ++ linuxArchMap arch) with
      | none => simp [postInstallRun, hgp, hlk]
      | some info => simp [postInstallRun, hgp, hlk]
    · have hgp : getPlatformInfo platform arch
          = Except.error (InstallError.unsupportedPlatform platform) := by
        simp [getPlatformInfo, hnd, hw, hl]
      simp [postInstallRun, hgp]

/-- C8: in an unprivileged run the service installer is skipped, the only
effects are downloads to the DMG staging path in /tmp (no mount, no copy,
no protected-path write of any kind), every path other than the staging
path is untouched, and the status checks of index.js read the same
answers after the run as before it. -/
theorem C8_unprivileged_run_writes_nothing_protected (ops : SysEvent → Bool)
    (dg : Content → String) (net : String → List GetResult) (platform arch : String)
    (installerCfg serviceCfg : List (String × ArtifactInfo))
    (vol : List String) (bundle : Content) (fs : FS)
    (programFiles localAppData : Option String) :
    (postInstallRun ops dg net platform arch false installerCfg serviceCfg vol bundle
        fs).serviceInstalled = false
    ∧ (∀ e ∈ (postInstallRun ops dg net platform arch false installerCfg serviceCfg vol
        bundle fs).events, ∃ u, e = SysEvent.download u kaituDmgTmp)
    ∧ (∀ p, p ≠ kaituDmgTmp →
        FS.read (postInstallRun ops dg net platform arch false installerCfg serviceCfg vol
          bundle fs).fs p = FS.read fs p)
    ∧ isAppInstalled platform programFiles localAppData
        (postInstallRun ops dg net platform arch false installerCfg serviceCfg vol bundle
          fs).fs
      = isAppInstalled platform programFiles localAppData fs
    ∧ isServiceInstalled platform programFiles
        (postInstallRun ops dg net platform arch false installerCfg serviceCfg vol bundle
          fs).fs
      = isServiceInstalled platform programFiles fs := by
  by_cases hd : platform = "darwin"
  · subst hd
    obtain ⟨h1, h2, h3⟩ :=
      postInstallRun_darwin_unpriv ops dg net arch installerCfg serviceCfg vol bundle fs
    refine ⟨h1, h2, h3, ?_, ?_⟩
    · simp [isAppInstalled, FS.pathExists,
        h3 "/Applications/Kaitu.app" (by decide)]
    · simp [isServiceInstalled, serviceBinPath, FS.pathExists,
        h3 "/usr/local/bin/kaitu-service" (by decide)]
  · obtain ⟨h1, h2, h3⟩ := postInstallRun_nonmac_unpriv ops dg net platform arch
      installerCfg serviceCfg vol bundle fs hd
    refine ⟨h3, ?_, ?_, ?_, ?_⟩
    · simp [h2]
    · intro p _
      rw [h1]
    · rw [h1]
    · rw [h1]

/-- Witness for C8: an unprivileged darwin run leaves the application path
untouched. -/
theorem C8_unprivileged_run_writes_nothing_protected_witness :
    FS.read (postInstallRun opsAllOk (fun _ => "aa")
        (fun _ => [GetResult.success 200 "" [7]]) "darwin" "arm64" false
        [("darwin-universal", ⟨"https://x/app.dmg", "sha256:bb"⟩)] [] [] [] []).fs
      "/Applications/Kaitu.app" = FS.read [] "/Applications/Kaitu.app" :=
  (C8_unprivileged_run_writes_nothing_protected opsAllOk (fun _ => "aa")
    (fun _ => [GetResult.success 200 "" [7]]) "darwin" "arm64"
    [("darwin-universal", ⟨"https://x/app.dmg", "sha256:bb"⟩)] [] [] [] [] none
    none).2.2.1 "/Applications/Kaitu.app" (by decide)
